import Mathlib

/-!
Shallow embedding of the Telegram media-downloader bot (src/main.go) and proofs
about its URL classifier, progress pipeline, session registry, format policy,
size-gated delivery and string truncation.

Go strings are modelled by their character sequences (`String.data`). The
program only ever matches and slices ASCII text, where Go byte indexing and
character indexing coincide.
-/

/-- Models Go `strings.ToLower` (ASCII case mapping, which is all this program
relies on): lowercases every character of the string. -/
def goToLower (s : String) : String :=
  ⟨s.data.map Char.toLower⟩

/-- Boolean contiguous-subsequence test on character lists: `containsSeq sub l`
is `true` iff `sub` occurs contiguously inside `l`. Executable counterpart of
`List.IsInfix`, used to model Go `strings.Contains`. -/
def containsSeq (sub : List Char) : List Char → Bool
  | [] => sub.isEmpty
  | b :: bs => sub.isPrefixOf (b :: bs) || containsSeq sub bs

/-- Models Go `strings.Contains s sub`. -/
def goContains (s sub : String) : Bool :=
  containsSeq sub.data s.data

/-- Models Go `strings.HasPrefix s pre`. -/
def goStartsWith (s pre : String) : Bool :=
  pre.data.isPrefixOf s.data

/-- Models `isValidURL` (src/main.go:179-188): the string must start with the
literal text "http" and contain one of six fixed domain fragments; both checks
are performed on the raw string, with no case folding. -/
def isValidURL (url : String) : Bool :=
  goStartsWith url "http" &&
    (goContains url "youtube.com" ||
      goContains url "youtu.be" ||
      goContains url "instagram.com" ||
      goContains url "facebook.com" ||
      goContains url "fb.com" ||
      goContains url "tiktok.com")

/-- The six domain fragments accepted by `isValidURL`. -/
def validFragments : List String :=
  ["youtube.com", "youtu.be", "instagram.com", "facebook.com", "fb.com", "tiktok.com"]

/-- Models `detectPlatform` (src/main.go:190-205): lowercase the string, then
test the per-platform fragment sets in order YouTube, Instagram, Facebook,
TikTok (Go `switch` cases evaluate top to bottom); no match yields "Unknown". -/
def detectPlatform (url : String) : String :=
  let lowerURL := goToLower url
  if goContains lowerURL "youtube.com" || goContains lowerURL "youtu.be" then
    "YouTube"
  else if goContains lowerURL "instagram.com" || goContains lowerURL "instagr.am" then
    "Instagram"
  else if goContains lowerURL "facebook.com" || goContains lowerURL "fb.com" ||
      goContains lowerURL "fb.watch" then
    "Facebook"
  else if goContains lowerURL "tiktok.com" || goContains lowerURL "vm.tiktok.com" then
    "TikTok"
  else
    "Unknown"

/-- The nine domain fragments scanned by `detectPlatform`, in scan order. -/
def detectFragments : List String :=
  ["youtube.com", "youtu.be", "instagram.com", "instagr.am",
    "facebook.com", "fb.com", "fb.watch", "tiktok.com", "vm.tiktok.com"]

/-- Models `truncateString` (src/main.go:551-556). Go returns `s` unchanged when
`len(s) <= maxLen` and otherwise `s[:maxLen-3] + "..."`. When `maxLen < 3` and
`len(s) > maxLen` the slice index `maxLen-3` is negative and the Go program
panics with a slice-bounds error; the panic is modelled as `none`. The Go cap is
an `int`; every call site passes a positive literal, and a negative cap panics
exactly like `maxLen < 3`, so the cap is modelled as `ℕ`. -/
def truncateString (s : String) (maxLen : Nat) : Option String :=
  if s.data.length ≤ maxLen then some s
  else if maxLen < 3 then none
  else some ⟨s.data.take (maxLen - 3) ++ "...".data⟩

/-- Models Go `strings.Split s "/"` for the single-character separator:
split at every occurrence of the separator, keeping empty fields, so the
result always has one more field than there are separators. -/
def splitOnChar (sep : Char) : List Char → List (List Char)
  | [] => [[]]
  | c :: cs =>
    if c = sep then [] :: splitOnChar sep cs
    else
      match splitOnChar sep cs with
      | [] => [[c]]
      | p :: ps => (c :: p) :: ps

/-- Numeric value of a decimal digit character, `none` for any other character. -/
def digitVal (c : Char) : Option Nat :=
  if '0' ≤ c ∧ c ≤ '9' then some (c.toNat - 48) else none

/-- Accumulates a run of decimal digits left to right; `none` on the first
non-digit character. -/
def decDigits : List Char → Nat → Option Nat
  | [], acc => some acc
  | c :: cs, acc =>
    match digitVal c with
    | some d => decDigits cs (acc * 10 + d)
    | none => none

/-- Models Go `strconv.ParseInt(s, 10, 64)`: an optional single leading sign,
then at least one decimal digit and nothing else, and the value must fit in a
signed 64-bit integer (Go reports ErrRange otherwise). `none` models a non-nil
Go error. -/
def goParseInt64 : List Char → Option Int
  | [] => none
  | c :: cs =>
    if c = '+' then
      match cs with
      | [] => none
      | _ => (decDigits cs 0).bind fun n =>
          if n ≤ 2 ^ 63 - 1 then some (n : Int) else none
    else if c = '-' then
      match cs with
      | [] => none
      | _ => (decDigits cs 0).bind fun n =>
          if n ≤ 2 ^ 63 then some (-(n : Int)) else none
    else
      (decDigits (c :: cs) 0).bind fun n =>
        if n ≤ 2 ^ 63 - 1 then some (n : Int) else none

/-- Number of binary digits of a natural number (0 for 0), by fuel-bounded
structural recursion so that it reduces in the kernel; the fuel 320 is exact
for every number below 2^320, far above everything this model computes on. -/
def bitlenAux : Nat → Nat → Nat
  | 0, _ => 0
  | fuel + 1, n => if n = 0 then 0 else bitlenAux fuel (n / 2) + 1

/-- Bit length of a natural number below 2^320. -/
def bitlen (n : Nat) : Nat := bitlenAux 320 n

/-- IEEE-754 round-to-nearest, ties-to-even, of the dyadic value `m * 2^e` to
53 significant bits (the binary64 precision), with unbounded exponent range.
Returns the mantissa-exponent pair of the rounded value. Every value this model
rounds lies far inside the binary64 normal range, where unbounded-exponent
rounding coincides with binary64 rounding (no overflow, no subnormals). -/
def round53 (m : Nat) (e : Int) : Nat × Int :=
  let t := bitlen m
  if t ≤ 53 then (m, e)
  else
    let s := t - 53
    let q := m / 2 ^ s
    let r := m % 2 ^ s
    let mid := 2 ^ (s - 1)
    let m2 := if mid < r ∨ (r = mid ∧ q % 2 = 1) then q + 1 else q
    (m2, e + s)

/-- IEEE-754 round-to-nearest, ties-to-even, of the exact quotient `a / b`
(for `a, b ≥ 1`) to 53 significant bits. The quotient is scaled by 2^200 (so
the integer part always carries more than 53 bits for the operand sizes at
hand), cut to 53 bits, and the cut-off remainder together with the exact
division remainder decides the rounding direction; no information is lost, so
this is the correctly rounded quotient. Returns mantissa and exponent. -/
def roundDiv53 (a b : Nat) : Nat × Int :=
  let q200 := a * 2 ^ 200 / b
  let rN := a * 2 ^ 200 % b
  let t := bitlen q200
  let s := t - 53
  let q := q200 / 2 ^ s
  let r := q200 % 2 ^ s
  let lhs := 2 * (r * b + rN)
  let rhs := b * 2 ^ s
  let m := if rhs < lhs ∨ (lhs = rhs ∧ q % 2 = 1) then q + 1 else q
  (m, (s : Int) - 200)

/-- Truncation toward zero of the nonnegative dyadic value `m * 2^e`. -/
def dyadicTruncNat (m : Nat) (e : Int) : Nat :=
  match e with
  | Int.ofNat k => m * 2 ^ k
  | Int.negSucc k => m / 2 ^ (k + 1)

/-- Models the Go expression `int((float64(downloaded) / float64(total)) * 100)`
of src/main.go:548 for nonzero `total`, reproducing each binary64 rounding
step exactly: both int64 operands are converted to float64 (a rounding for
magnitudes of 54 bits or more), the quotient is correctly rounded, the product
with 100 (itself exact in float64) is correctly rounded, and the result is
truncated toward zero. Signs are handled by symmetry, as in IEEE-754. The one
unmodelled corner is a final value overflowing int64 (total of tiny magnitude
against a huge downloaded), where the Go conversion is implementation-defined;
the model returns the mathematical truncation there. Validated against the
reference binary64 arithmetic on several hundred operand pairs, including
"29/100" (which yields 28, not 29: float64(29)/float64(100) times 100 is just
below 29). -/
def float64Percent (downloaded total : Int) : Int :=
  if downloaded = 0 then 0
  else
    let fa := round53 downloaded.natAbs 0
    let fb := round53 total.natAbs 0
    let fq := roundDiv53 fa.1 fb.1
    let fm := round53 (fq.1 * 100) (fq.2 + fa.2 - fb.2)
    let v := dyadicTruncNat fm.1 fm.2
    if 0 < downloaded ↔ 0 < total then (v : Int) else -(v : Int)

/-- Models `parseProgress` (src/main.go:534-549): split the line on "/", require
exactly two fields that both parse as 64-bit integers with a nonzero total, and
otherwise return 0. On a valid pair the Go code computes
`int((float64(downloaded) / float64(total)) * 100)`, modelled bit-exactly by
`float64Percent`. -/
def parseProgress (line : String) : Int :=
  match splitOnChar '/' line.data with
  | [a, b] =>
    match goParseInt64 a, goParseInt64 b with
    | some downloaded, some total =>
      if total = 0 then 0 else float64Percent downloaded total
    | _, _ => 0
  | _ => 0

/-- One line of the yt-dlp progress stream together with its arrival time in
nanoseconds, the resolution of Go `time.Time`. -/
structure ProgressEvent where
  time : Int
  line : String

/-- Nanoseconds per second: Go `time.Since(t).Seconds() >= UpdateIntervalSec`
compares elapsed float64 seconds against 3; at nanosecond resolution this is
exactly `elapsed ≥ 3 * nsPerSec`. -/
def nsPerSec : Int := 1000000000

/-- `UpdateIntervalSec` (src/main.go:21): progress update interval in seconds. -/
def UpdateIntervalSec : Int := 3

/-- Models the scanner loop of `trackProgress` (src/main.go:509-532), carrying
`lastUpdateTime`: a line emits a UI update (a message edit showing its percent)
iff its parsed progress is greater than 0 and at least `UpdateIntervalSec`
seconds have elapsed since `lastUpdateTime`, which is then reset to the line's
arrival time. Returns the (time, percent) pairs of emitted updates in order. -/
def trackEmits (lastUpdateTime : Int) : List ProgressEvent → List (Int × Int)
  | [] => []
  | e :: es =>
    let progress := parseProgress e.line
    if 0 < progress ∧ UpdateIntervalSec * nsPerSec ≤ e.time - lastUpdateTime then
      (e.time, progress) :: trackEmits e.time es
    else
      trackEmits lastUpdateTime es

/-- Models `trackProgress` (src/main.go:509-532): `lastUpdateTime` is
initialized to `time.Now()` when the tracker starts reading the stream;
`startTime` is that instant. -/
def trackProgress (startTime : Int) (events : List ProgressEvent) : List (Int × Int) :=
  trackEmits startTime events

/-- Models the `Download` record (src/main.go:25-32). -/
structure Download where
  url : String
  platform : String
  title : String
  thumbnail : String
  progress : Int
  isAudio : Bool
deriving DecidableEq

/-- Models `getCacheKey` (src/main.go:175-177): `fmt.Sprintf("%d:%d", ...)`,
the decimal renderings of the chat and message identifiers joined by a colon.
Go `int64`/`int` render under `%d` exactly as `Int.repr`. -/
def getCacheKey (chatID : Int) (messageID : Int) : String :=
  Int.repr chatID ++ ":" ++ Int.repr messageID

/-- The `urlCache` map (src/main.go:55) modelled as an association list in which
a store shadows earlier bindings: lookup returns the most recent binding and
delete removes every binding of its key, matching Go map lookup/store/delete. -/
abbrev Registry := List (String × Download)

/-- Models `urlCache[k] = v`. -/
def regStore (reg : Registry) (k : String) (v : Download) : Registry :=
  (k, v) :: reg

/-- Models `delete(urlCache, k)`. -/
def regDelete (reg : Registry) (k : String) : Registry :=
  reg.filter fun p => p.1 != k

/-- Models `urlCache[k]` with its ok-flag: `none` is "not found". -/
def regLookup (reg : Registry) (k : String) : Option Download :=
  reg.lookup k

/-- The registry writes performed by the metadata goroutine (src/main.go:93-126)
in program order: store `info` under the provisional key (chat, placeholder 0),
send the options message obtaining its identifier `sentMsgID`, store `info`
under the permanent key (chat, `sentMsgID`), and delete the provisional entry.
The sends themselves do not touch the registry. -/
def metadataRekey (reg : Registry) (chatID sentMsgID : Int) (info : Download) : Registry :=
  let cacheKey := getCacheKey chatID 0
  let reg1 := regStore reg cacheKey info
  let newCacheKey := getCacheKey chatID sentMsgID
  let reg2 := regStore reg1 newCacheKey info
  regDelete reg2 cacheKey

/-- `MaxFileSize` (src/main.go:20): 150 MiB, the bot upload ceiling, in bytes. -/
def MaxFileSize : Int := 150 * 1024 * 1024

/-- The user-visible bot calls made by the delivery tails of
`handleVideoDownload` / `handleAudioDownload`, with the textual message
formatting (including the `%.1f` MiB size figure) abstracted into fields:
`editVideoComplete` / `editAudioComplete` are the completion edits of the
status message (carrying the 150-capped title), `sizeExceededVideo` /
`sizeExceededAudio` are the limit-exceeded chat messages, and `uploadVideo` /
`uploadAudio` are the attachment uploads with their caption data (the
100-capped title, and for audio also the raw title passed as `audio.Title`). -/
inductive BotAction where
  | editVideoComplete (titleTrunc : Option String)
  | editAudioComplete (titleTrunc : Option String)
  | sizeExceededVideo (sizeBytes : Int)
  | sizeExceededAudio (sizeBytes : Int)
  | uploadVideo (platform : String) (titleTrunc : Option String) (quality : String) (sizeBytes : Int)
  | uploadAudio (platform : String) (titleTrunc : Option String) (title : String) (sizeBytes : Int)
deriving DecidableEq

/-- The delivery tail of `handleVideoDownload` (src/main.go:373-404), given the
byte size of the produced file: edit the status message to announce completion
and pending upload, then either send the size-exceeded message and stop
(strictly above `MaxFileSize`) or send the video attachment. -/
def videoDelivery (platform title quality : String) (fileSize : Int) : List BotAction :=
  BotAction.editVideoComplete (truncateString title 150) ::
    (if MaxFileSize < fileSize then
      [BotAction.sizeExceededVideo fileSize]
    else
      [BotAction.uploadVideo platform (truncateString title 100) quality fileSize])

/-- The delivery tail of `handleAudioDownload` (src/main.go:475-507). -/
def audioDelivery (platform title : String) (fileSize : Int) : List BotAction :=
  BotAction.editAudioComplete (truncateString title 150) ::
    (if MaxFileSize < fileSize then
      [BotAction.sizeExceededAudio fileSize]
    else
      [BotAction.uploadAudio platform (truncateString title 100) title fileSize])

/-- The format-code switch of `handleVideoDownload` (src/main.go:286-309). -/
def videoFormatCode (platform quality : String) : String :=
  if platform = "YouTube" then
    if quality = "360p" then "18/bestvideo[height<=360]+bestaudio/best[height<=360]"
    else if quality = "480p" then
      "135+bestaudio/bestvideo[height<=480]+bestaudio/best[height<=480]"
    else if quality = "720p" then
      "22/136+bestaudio/bestvideo[height<=720]+bestaudio/best[height<=720]"
    else "best"
  else if platform = "Instagram" ∨ platform = "Facebook" ∨ platform = "TikTok" then
    if quality = "medium" then "worst[ext=mp4]/worst" else "best[ext=mp4]/best"
  else
    "best"

/-- The output template `fmt.Sprintf("video_%d.%%(ext)s", timestamp)`. -/
def videoOutputName (timestamp : Int) : String :=
  "video_" ++ Int.repr timestamp ++ ".%(ext)s"

/-- The output template `fmt.Sprintf("audio_%d.%%(ext)s", timestamp)`. -/
def audioOutputName (timestamp : Int) : String :=
  "audio_" ++ Int.repr timestamp ++ ".%(ext)s"

/-- The yt-dlp progress-template argument (src/main.go:317,419). -/
def progressTemplateArg : String :=
  "%(progress.downloaded_bytes)s/%(progress.total_bytes)s"

/-- The yt-dlp argument list built by `handleVideoDownload` (src/main.go:311-328):
the base flags with the platform/quality format code, then
`--no-check-certificate` appended exactly for Instagram and Facebook, then the
URL as the final argument. -/
def videoArgs (platform quality url : String) (timestamp : Int) : List String :=
  let base := ["-f", videoFormatCode platform quality, "--remux-video", "mp4",
    "-o", videoOutputName timestamp, "--newline",
    "--progress-template", progressTemplateArg,
    "--no-playlist"]
  let args := if platform = "Instagram" ∨ platform = "Facebook" then
    base ++ ["--no-check-certificate"] else base
  args ++ [url]

/-- The yt-dlp argument list built by `handleAudioDownload` (src/main.go:412-430):
always extract audio and re-encode to mp3 at best encoder quality, with
`--no-check-certificate` appended exactly for Instagram and Facebook, then the
URL as the final argument. -/
def audioArgs (platform url : String) (timestamp : Int) : List String :=
  let base := ["-x", "--audio-format", "mp3", "--audio-quality", "0",
    "-o", audioOutputName timestamp, "--newline",
    "--progress-template", progressTemplateArg,
    "--no-playlist"]
  let args := if platform = "Instagram" ∨ platform = "Facebook" then
    base ++ ["--no-check-certificate"] else base
  args ++ [url]

/-! ## Bridge lemmas between the executable string tests and their Prop forms -/

theorem goToLower_data (s : String) : (goToLower s).data = s.data.map Char.toLower :=
  rfl

theorem containsSeq_iff (sub l : List Char) : containsSeq sub l = true ↔ sub <:+: l := by
  induction l with
  | nil => simp [containsSeq, List.isEmpty_iff, List.infix_nil]
  | cons b bs ih =>
    rw [containsSeq, Bool.or_eq_true, ih, List.infix_cons_iff, List.isPrefixOf_iff_prefix]

theorem goContains_iff (s sub : String) : goContains s sub = true ↔ sub.data <:+: s.data :=
  containsSeq_iff sub.data s.data

theorem goStartsWith_iff (s pre : String) :
    goStartsWith s pre = true ↔ pre.data <+: s.data :=
  List.isPrefixOf_iff_prefix

theorem goContains_goToLower (u f : String) (hf : f.data.map Char.toLower = f.data)
    (h : goContains u f = true) : goContains (goToLower u) f = true := by
  rw [goContains_iff] at h ⊢
  rw [goToLower_data, ← hf]
  exact List.IsInfix.map Char.toLower h

/-! ## C1: URL validation -/

/-- C1 counterexample: the claim says the scheme and fragment checks are
case-insensitive, so "HTTP://YOUTUBE.COM" (which starts with an HTTP marker and
contains youtube.com up to case, as the first two conjuncts record) would have
to be valid; `isValidURL` reports it invalid, because both checks are performed
case-sensitively on the raw string. -/
theorem isValidURL_case_sensitive_cex :
    goStartsWith (goToLower "HTTP://YOUTUBE.COM") "http" = true ∧
    goContains (goToLower "HTTP://YOUTUBE.COM") "youtube.com" = true ∧
    isValidURL "HTTP://YOUTUBE.COM" = false := by
  decide

/-- C1 (amended): a string is reported valid iff it literally starts with
"http" and literally contains one of the six domain fragments, both checks
case-sensitive; and every string lacking an HTTP(S) prefix even up to case is
reported invalid regardless of its domain content. -/
theorem isValidURL_characterization :
    ∀ url : String,
      (isValidURL url = true ↔
        "http".data <+: url.data ∧ ∃ f ∈ validFragments, f.data <:+: url.data) ∧
      (¬ "http".data <+: (goToLower url).data → isValidURL url = false) := by
  intro url
  constructor
  · rw [isValidURL, Bool.and_eq_true, goStartsWith_iff]
    simp only [Bool.or_eq_true, goContains_iff, validFragments, List.mem_cons,
      List.mem_singleton, List.not_mem_nil]
    constructor
    · rintro ⟨h1, h2⟩
      refine ⟨h1, ?_⟩
      rcases h2 with ((((h | h) | h) | h) | h) | h
      · exact ⟨"youtube.com", by simp, h⟩
      · exact ⟨"youtu.be", by simp, h⟩
      · exact ⟨"instagram.com", by simp, h⟩
      · exact ⟨"facebook.com", by simp, h⟩
      · exact ⟨"fb.com", by simp, h⟩
      · exact ⟨"tiktok.com", by simp, h⟩
    · rintro ⟨h1, f, hf, hinf⟩
      refine ⟨h1, ?_⟩
      rcases hf with rfl | rfl | rfl | rfl | rfl | rfl | h0
      · exact Or.inl (Or.inl (Or.inl (Or.inl (Or.inl hinf))))
      · exact Or.inl (Or.inl (Or.inl (Or.inl (Or.inr hinf))))
      · exact Or.inl (Or.inl (Or.inl (Or.inr hinf)))
      · exact Or.inl (Or.inl (Or.inr hinf))
      · exact Or.inl (Or.inr hinf)
      · exact Or.inr hinf
      · exact h0.elim
  · intro h
    cases hv : isValidURL url with
    | false => rfl
    | true =>
      exfalso
      apply h
      rw [isValidURL, Bool.and_eq_true, goStartsWith_iff] at hv
      have hp := List.IsPrefix.map Char.toLower hv.1
      rw [goToLower_data]
      have hfix : ("http".data.map Char.toLower) = "http".data := by decide
      rwa [hfix] at hp

/-- C1 witness: a string lacking any HTTP(S) prefix is invalid despite its
domain content. -/
theorem isValidURL_characterization_w :
    isValidURL "ftp://youtube.com" = false :=
  (isValidURL_characterization "ftp://youtube.com").2 (by decide)

/-! ## C5 and C9: platform detection -/

theorem detectPlatform_unknown_aux (u : String) :
    detectPlatform u = "Unknown" ↔
      ∀ f ∈ detectFragments, goContains (goToLower u) f = false := by
  constructor
  · intro h
    rw [detectPlatform] at h
    split_ifs at h with h1 h2 h3 h4
    · exact absurd h (by decide)
    · exact absurd h (by decide)
    · exact absurd h (by decide)
    · exact absurd h (by decide)
    · simp only [Bool.or_eq_true, not_or, Bool.not_eq_true] at h1 h2 h3 h4
      obtain ⟨hy1, hy2⟩ := h1
      obtain ⟨hi1, hi2⟩ := h2
      obtain ⟨⟨hf1, hf2⟩, hf3⟩ := h3
      obtain ⟨ht1, ht2⟩ := h4
      intro f hf
      simp only [detectFragments, List.mem_cons, List.not_mem_nil, or_false] at hf
      rcases hf with rfl | rfl | rfl | rfl | rfl | rfl | rfl | rfl | rfl <;> assumption
  · intro h
    have h9 : goContains (goToLower u) "youtube.com" = false ∧
        goContains (goToLower u) "youtu.be" = false ∧
        goContains (goToLower u) "instagram.com" = false ∧
        goContains (goToLower u) "instagr.am" = false ∧
        goContains (goToLower u) "facebook.com" = false ∧
        goContains (goToLower u) "fb.com" = false ∧
        goContains (goToLower u) "fb.watch" = false ∧
        goContains (goToLower u) "tiktok.com" = false ∧
        goContains (goToLower u) "vm.tiktok.com" = false := by
      refine ⟨?_, ?_, ?_, ?_, ?_, ?_, ?_, ?_, ?_⟩ <;> exact h _ (by simp [detectFragments])
    obtain ⟨hy1, hy2, hi1, hi2, hf1, hf2, hf3, ht1, ht2⟩ := h9
    rw [detectPlatform]
    simp [hy1, hy2, hi1, hi2, hf1, hf2, hf3, ht1, ht2]

/-- C5: platform detection scans the lowercased string against the per-platform
fragment sets with first match winning in the order YouTube, Instagram,
Facebook, TikTok; it depends on the input only through its lowercased form (so
casing is immaterial); a YouTube fragment in the lowercased string forces
"YouTube" whatever else occurs (in particular a URL containing both youtube.com
and tiktok.com); and "Unknown" is returned exactly when no fragment matches. -/
theorem detectPlatform_first_match :
    ∀ u : String,
      (∀ v : String, goToLower u = goToLower v → detectPlatform u = detectPlatform v) ∧
      ((goContains (goToLower u) "youtube.com" ||
          goContains (goToLower u) "youtu.be") = true →
        detectPlatform u = "YouTube") ∧
      ((goContains (goToLower u) "youtube.com" ||
          goContains (goToLower u) "youtu.be") = false →
        (goContains (goToLower u) "instagram.com" ||
          goContains (goToLower u) "instagr.am") = true →
        detectPlatform u = "Instagram") ∧
      ((goContains (goToLower u) "youtube.com" ||
          goContains (goToLower u) "youtu.be") = false →
        (goContains (goToLower u) "instagram.com" ||
          goContains (goToLower u) "instagr.am") = false →
        (goContains (goToLower u) "facebook.com" || goContains (goToLower u) "fb.com" ||
          goContains (goToLower u) "fb.watch") = true →
        detectPlatform u = "Facebook") ∧
      ((goContains (goToLower u) "youtube.com" ||
          goContains (goToLower u) "youtu.be") = false →
        (goContains (goToLower u) "instagram.com" ||
          goContains (goToLower u) "instagr.am") = false →
        (goContains (goToLower u) "facebook.com" || goContains (goToLower u) "fb.com" ||
          goContains (goToLower u) "fb.watch") = false →
        (goContains (goToLower u) "tiktok.com" ||
          goContains (goToLower u) "vm.tiktok.com") = true →
        detectPlatform u = "TikTok") ∧
      (detectPlatform u = "Unknown" ↔
        ∀ f ∈ detectFragments, goContains (goToLower u) f = false) := by
  intro u
  refine ⟨?_, ?_, ?_, ?_, ?_, detectPlatform_unknown_aux u⟩
  · intro v hv
    rw [detectPlatform, detectPlatform, hv]
  · intro h1
    rw [detectPlatform]
    simp [h1]
  · intro h1 h2
    rw [detectPlatform]
    simp [h1, h2]
  · intro h1 h2 h3
    rw [detectPlatform]
    simp [h1, h2, h3]
  · intro h1 h2 h3 h4
    rw [detectPlatform]
    simp [h1, h2, h3, h4]

/-- C5 witness: a URL containing both youtube.com and tiktok.com, in upper
casing, resolves to YouTube. -/
theorem detectPlatform_first_match_w :
    detectPlatform "HTTPS://WWW.YOUTUBE.COM/WATCH?TIKTOK.COM" = "YouTube" :=
  (detectPlatform_first_match "HTTPS://WWW.YOUTUBE.COM/WATCH?TIKTOK.COM").2.1 (by decide)

/-- C9: every string the URL classifier accepts is assigned a known platform:
each validating domain fragment is covered by some platform's detection set, so
a valid URL never reaches the Unknown-platform path. -/
theorem isValidURL_detectPlatform_known :
    ∀ u : String, isValidURL u = true → detectPlatform u ≠ "Unknown" := by
  intro u hv hU
  rw [detectPlatform_unknown_aux] at hU
  rw [isValidURL, Bool.and_eq_true] at hv
  have hfrag := hv.2
  simp only [Bool.or_eq_true] at hfrag
  rcases hfrag with ((((h | h) | h) | h) | h) | h
  · exact absurd (goContains_goToLower u "youtube.com" (by decide) h)
      (by simp [hU "youtube.com" (by simp [detectFragments])])
  · exact absurd (goContains_goToLower u "youtu.be" (by decide) h)
      (by simp [hU "youtu.be" (by simp [detectFragments])])
  · exact absurd (goContains_goToLower u "instagram.com" (by decide) h)
      (by simp [hU "instagram.com" (by simp [detectFragments])])
  · exact absurd (goContains_goToLower u "facebook.com" (by decide) h)
      (by simp [hU "facebook.com" (by simp [detectFragments])])
  · exact absurd (goContains_goToLower u "fb.com" (by decide) h)
      (by simp [hU "fb.com" (by simp [detectFragments])])
  · exact absurd (goContains_goToLower u "tiktok.com" (by decide) h)
      (by simp [hU "tiktok.com" (by simp [detectFragments])])

/-- C9 witness: a valid fb.com URL gets a known platform. -/
theorem isValidURL_detectPlatform_known_w :
    detectPlatform "https://fb.com/v/1" ≠ "Unknown" :=
  isValidURL_detectPlatform_known "https://fb.com/v/1" (by decide)

/-! ## C2: progress-line parsing -/

set_option maxRecDepth 16000 in
/-- C2 counterexample: both "-1/3" and "29/100" split on "/" into exactly two
fields that both parse as integers with a nonzero total, yet the program
returns -33 on the first (the Go float-to-int conversion truncates toward
zero) and not floor(100 * (-1) / 3) = -34, and returns 28 on the second (the
binary64 evaluation of (29/100)*100 falls just below 29) and not
floor(100 * 29 / 100) = 29. -/
theorem parseProgress_not_floor_cex :
    splitOnChar '/' "-1/3".data = ["-1".data, "3".data] ∧
    goParseInt64 "-1".data = some (-1) ∧
    goParseInt64 "3".data = some 3 ∧
    (3 : Int) ≠ 0 ∧
    parseProgress "-1/3" = -33 ∧
    Int.fdiv (100 * (-1)) 3 = -34 ∧
    splitOnChar '/' "29/100".data = ["29".data, "100".data] ∧
    goParseInt64 "29".data = some 29 ∧
    goParseInt64 "100".data = some 100 ∧
    (100 : Int) ≠ 0 ∧
    parseProgress "29/100" = 28 ∧
    Int.fdiv (100 * 29) 100 = 29 := by
  decide

set_option maxRecDepth 16000 in
/-- C2 (amended): the parser returns the truncation toward zero of the
binary64 evaluation of (downloaded / total) * 100 — which can fall one below
floor(100 * downloaded / total) on ordinary inputs such as "29/100", and
truncates rather than floors on negative ratios such as "-1/3" — exactly when
the line splits on "/" into two integer fields with nonzero total, and returns
0 in every other case; in particular "5000000/10000000" yields 50 and
"abc/10", "10/0" and a line without "/" each yield 0. -/
theorem parseProgress_characterization :
    (∀ (line : String) (a b : List Char) (d t : Int),
        splitOnChar '/' line.data = [a, b] →
        goParseInt64 a = some d →
        goParseInt64 b = some t →
        t ≠ 0 →
        parseProgress line = float64Percent d t) ∧
    (∀ (line : String) (a b : List Char),
        splitOnChar '/' line.data = [a, b] →
        goParseInt64 a = none ∨ goParseInt64 b = none ∨ goParseInt64 b = some 0 →
        parseProgress line = 0) ∧
    (∀ line : String,
        (¬ ∃ a b, splitOnChar '/' line.data = [a, b]) →
        parseProgress line = 0) ∧
    parseProgress "5000000/10000000" = 50 ∧
    parseProgress "abc/10" = 0 ∧
    parseProgress "10/0" = 0 ∧
    parseProgress "1000000010000000" = 0 := by
  refine ⟨?_, ?_, ?_, by decide, by decide, by decide, by decide⟩
  · intro line a b d t hsplit hd ht htz
    rw [parseProgress, hsplit]
    dsimp only
    rw [hd, ht]
    exact if_neg htz
  · intro line a b hsplit herr
    rw [parseProgress, hsplit]
    dsimp only
    rcases herr with h | h | h
    · rw [h]
    · rw [h]
      all_goals cases goParseInt64 a <;> rfl
    · rw [h]
      cases goParseInt64 a with
      | none => rfl
      | some d => simp
  · intro line hno
    rcases hsp : splitOnChar '/' line.data with _ | ⟨x, _ | ⟨y, _ | ⟨z, rest⟩⟩⟩
    · rw [parseProgress, hsp]
    · rw [parseProgress, hsp]
    · exact absurd ⟨x, y, hsp⟩ hno
    · rw [parseProgress, hsp]

/-- C2 witness: a two-field integer line with nonzero total yields the
truncated binary64 percentage. -/
theorem parseProgress_characterization_w :
    parseProgress "17/25" = float64Percent 17 25 :=
  parseProgress_characterization.1 "17/25" "17".data "25".data 17 25
    (by decide) (by decide) (by decide) (by decide)

/-! ## C7: title truncation -/

/-- C7 counterexample: for a cap below 3 and a longer string the claim promises
a returned string of exactly the cap's length ending in "...", but the Go code
slices with the negative index `maxLen-3` and panics (modelled as `none`): no
string is returned at all. -/
theorem truncateString_small_cap_cex :
    truncateString "abcd" 2 = none := by
  decide

/-- C7 (amended): for caps of at least 3, a string no longer than the cap is
returned unchanged, and a longer string yields a result of exactly the cap's
length ending in "..."; for caps below 3 and a longer string the code panics
instead of returning a string. -/
theorem truncateString_characterization :
    ∀ (s : String) (maxLen : Nat), 3 ≤ maxLen →
      (s.data.length ≤ maxLen → truncateString s maxLen = some s) ∧
      (maxLen < s.data.length →
        ∃ r, truncateString s maxLen = some r ∧ r.data.length = maxLen ∧
          "...".data <:+ r.data) := by
  intro s maxLen h3
  constructor
  · intro h
    rw [truncateString, if_pos h]
  · intro h
    have hnle : ¬ s.data.length ≤ maxLen := not_le.mpr h
    have hnlt : ¬ maxLen < 3 := not_lt.mpr h3
    refine ⟨⟨s.data.take (maxLen - 3) ++ "...".data⟩, ?_, ?_, ?_⟩
    · rw [truncateString, if_neg hnle, if_neg hnlt]
    · show (s.data.take (maxLen - 3) ++ "...".data).length = maxLen
      rw [List.length_append, List.length_take]
      have hlen : "...".data.length = 3 := by decide
      rw [hlen, Nat.min_def]
      split_ifs <;> omega
    · exact List.suffix_append _ _

set_option maxRecDepth 8000 in
/-- C7 witness: a 50-character-scale short title is returned unchanged, and a
250-character title truncated to cap 200 yields a 200-character result ending
in "...". -/
theorem truncateString_characterization_w :
    truncateString "short" 200 = some "short" ∧
    ∃ r, truncateString (String.mk (List.replicate 250 'a')) 200 = some r ∧
      r.data.length = 200 ∧ "...".data <:+ r.data :=
  ⟨(truncateString_characterization "short" 200 (by decide)).1 (by decide),
    (truncateString_characterization (String.mk (List.replicate 250 'a')) 200
      (by decide)).2 (by decide)⟩

/-! ## C3 and C10: progress-update rate limiting -/

theorem interval_ns_value : UpdateIntervalSec * nsPerSec = 3000000000 := by
  decide

theorem trackEmits_mem_bound :
    ∀ (events : List ProgressEvent) (last t p : Int),
      (t, p) ∈ trackEmits last events →
      0 < p ∧ last + UpdateIntervalSec * nsPerSec ≤ t := by
  intro events
  induction events with
  | nil =>
    intro last t p h
    simp [trackEmits] at h
  | cons e es ih =>
    intro last t p h
    rw [interval_ns_value]
    simp only [trackEmits, interval_ns_value] at h
    split_ifs at h with hc
    · rcases List.mem_cons.mp h with heq | hmem
      · have h1 : t = e.time := congrArg Prod.fst heq
        have h2 : p = parseProgress e.line := congrArg Prod.snd heq
        subst h1
        subst h2
        exact ⟨hc.1, by have := hc.2; omega⟩
      · have hrec := ih e.time t p hmem
        rw [interval_ns_value] at hrec
        have hstep := hc.2
        exact ⟨hrec.1, by omega⟩
    · have hrec := ih last t p h
      rw [interval_ns_value] at hrec
      exact hrec

theorem trackEmits_chain :
    ∀ (events : List ProgressEvent) (last : Int),
      List.Chain (fun a b => a + UpdateIntervalSec * nsPerSec ≤ b) last
        ((trackEmits last events).map Prod.fst) := by
  intro events
  induction events with
  | nil =>
    intro last
    simp [trackEmits]
  | cons e es ih =>
    intro last
    simp only [trackEmits]
    split_ifs with hc
    · simp only [List.map_cons]
      exact List.Chain.cons (by have := hc.2; omega) (ih e.time)
    · exact ih last

theorem trackEmits_count :
    ∀ (events : List ProgressEvent) (last T : Int),
      (∀ e ∈ events, e.time ≤ T) →
      (trackEmits last events).length = 0 ∨
        last + UpdateIntervalSec * nsPerSec * ((trackEmits last events).length : Int) ≤ T := by
  intro events
  induction events with
  | nil =>
    intro last T _
    left
    simp [trackEmits]
  | cons e es ih =>
    intro last T h
    have he : e.time ≤ T := h e (by simp)
    have hes : ∀ x ∈ es, x.time ≤ T := fun x hx => h x (List.mem_cons_of_mem e hx)
    simp only [trackEmits]
    split_ifs with hc
    · right
      rw [interval_ns_value]
      have hstep := hc.2
      rw [interval_ns_value] at hstep
      simp only [List.length_cons]
      rcases ih e.time T hes with h0 | hb
      · rw [h0]
        push_cast
        omega
      · rw [interval_ns_value] at hb
        push_cast
        omega
    · exact ih last T hes

/-- C3: a UI update is emitted only for lines whose parsed percent is strictly
positive, the emission times (starting from the tracker's start time) are
spaced at least `UpdateIntervalSec` seconds apart, and for any stream of lines
arriving within 10 seconds of the start, at most 4 (indeed at most 3) updates
are emitted. -/
theorem trackProgress_rate_limit :
    ∀ (startTime : Int) (events : List ProgressEvent),
      (∀ t p, (t, p) ∈ trackProgress startTime events → 0 < p) ∧
      List.Chain (fun a b => a + UpdateIntervalSec * nsPerSec ≤ b) startTime
        ((trackProgress startTime events).map Prod.fst) ∧
      ((∀ e ∈ events, startTime ≤ e.time ∧ e.time ≤ startTime + 10 * nsPerSec) →
        (trackProgress startTime events).length ≤ 4) := by
  intro startTime events
  refine ⟨?_, trackEmits_chain events startTime, ?_⟩
  · intro t p h
    exact (trackEmits_mem_bound events startTime t p h).1
  · intro h
    have hT : ∀ e ∈ events, e.time ≤ startTime + 10 * nsPerSec := fun e he => (h e he).2
    rcases trackEmits_count events startTime (startTime + 10 * nsPerSec) hT with h0 | hb
    · rw [trackProgress, h0]
      omega
    · rw [trackProgress]
      rw [interval_ns_value] at hb
      have : (10 : Int) * nsPerSec = 10000000000 := by decide
      rw [this] at hb
      omega

set_option maxRecDepth 16000 in
/-- C3 witness: a concrete stream of positive-percent lines inside a 10-second
window yields at most 4 updates. -/
theorem trackProgress_rate_limit_w :
    (trackProgress 0 [⟨0, "5/10"⟩, ⟨500000000, "6/10"⟩, ⟨3200000000, "7/10"⟩,
      ⟨3500000000, "8/10"⟩, ⟨9900000000, "9/10"⟩]).length ≤ 4 :=
  (trackProgress_rate_limit 0 [⟨0, "5/10"⟩, ⟨500000000, "6/10"⟩, ⟨3200000000, "7/10"⟩,
    ⟨3500000000, "8/10"⟩, ⟨9900000000, "9/10"⟩]).2.2 (by decide)

/-- C10: the throttle clock starts at stream-open time, so every emitted update
happens at least `UpdateIntervalSec` seconds after the tracker starts reading;
in particular nothing is emitted during the first 3 seconds, however early
valid positive-percent lines arrive. -/
theorem trackProgress_no_early_update :
    ∀ (startTime : Int) (events : List ProgressEvent) (t p : Int),
      (t, p) ∈ trackProgress startTime events →
      startTime + UpdateIntervalSec * nsPerSec ≤ t := by
  intro startTime events t p h
  exact (trackEmits_mem_bound events startTime t p h).2

set_option maxRecDepth 16000 in
/-- C10 witness: an update emitted from a line arriving 4 seconds in is indeed
at least 3 seconds after the start. -/
theorem trackProgress_no_early_update_w :
    (0 : Int) + UpdateIntervalSec * nsPerSec ≤ 4000000000 :=
  trackProgress_no_early_update 0 [⟨4000000000, "1/2"⟩] 4000000000 50 (by decide)

/-! ## C4: session re-keying in the registry -/

theorem toDigitsCore_length_ge :
    ∀ (fuel n : Nat) (ds : List Char), 1 ≤ fuel →
      ds.length + 1 ≤ (Nat.toDigitsCore 10 fuel n ds).length := by
  intro fuel
  induction fuel with
  | zero => intro n ds h; omega
  | succ f ih =>
    intro n ds _
    rw [Nat.toDigitsCore]
    split_ifs with h0
    · simp
    · rcases Nat.eq_zero_or_pos f with hf | hf
      · subst hf
        rw [Nat.toDigitsCore]
        simp
      · have := ih (n / 10) (Nat.digitChar (n % 10) :: ds) hf
        simp only [List.length_cons] at this
        omega

theorem toDigits_ne_single_zero :
    ∀ n : Nat, n ≠ 0 → Nat.toDigits 10 n ≠ ['0'] := by
  intro n hn
  rw [Nat.toDigits]
  by_cases hlt : n < 10
  · rw [Nat.toDigitsCore]
    rw [if_pos (Nat.div_eq_of_lt hlt)]
    rw [Nat.mod_eq_of_lt hlt]
    have h1 : 1 ≤ n := Nat.one_le_iff_ne_zero.mpr hn
    interval_cases n <;> decide
  · intro h
    have h10 : n / 10 ≠ 0 := by
      intro hz
      rw [Nat.div_eq_zero_iff (by omega)] at hz
      omega
    have hlen : (Nat.toDigitsCore 10 (n + 1) n []).length ≥ 2 := by
      rw [Nat.toDigitsCore, if_neg h10]
      have := toDigitsCore_length_ge n (n / 10) [Nat.digitChar (n % 10)] (by omega)
      simpa using this
    rw [h] at hlen
    simp at hlen

theorem int_repr_data_ne_zero :
    ∀ m : Int, m ≠ 0 → (Int.repr m).data ≠ (Int.repr 0).data := by
  intro m hm
  cases m with
  | ofNat n =>
    have hn : n ≠ 0 := by
      intro h
      exact hm (by rw [h]; rfl)
    show (Nat.repr n).data ≠ (Nat.repr 0).data
    rw [Nat.repr, Nat.repr]
    show (Nat.toDigits 10 n) ≠ (Nat.toDigits 10 0)
    have : Nat.toDigits 10 0 = ['0'] := by decide
    rw [this]
    exact toDigits_ne_single_zero n hn
  | negSucc k =>
    show (("-" : String) ++ Nat.repr (k + 1)).data ≠ (Int.repr 0).data
    rw [String.data_append]
    intro h
    have : '-' = '0' := List.head_eq_of_cons_eq h
    exact absurd this (by decide)

theorem getCacheKey_ne_of_msg_ne_zero :
    ∀ (chatID msgID : Int), msgID ≠ 0 → getCacheKey chatID msgID ≠ getCacheKey chatID 0 := by
  intro chatID msgID hm he
  rw [getCacheKey, getCacheKey] at he
  have hd := congrArg String.data he
  rw [String.data_append, String.data_append, String.data_append, String.data_append] at hd
  rw [List.append_assoc, List.append_assoc] at hd
  have := List.append_cancel_left hd
  have := List.append_cancel_left this
  exact int_repr_data_ne_zero msgID hm this

theorem regLookup_regDelete_self (reg : Registry) (k : String) :
    regLookup (regDelete reg k) k = none := by
  induction reg with
  | nil => rfl
  | cons p ps ih =>
    rw [regDelete, List.filter]
    cases hb : (p.1 != k) with
    | false => exact ih
    | true =>
      rw [regLookup, List.lookup]
      have hne : (k == p.1) = false := by
        rw [bne_iff_ne] at hb
        exact beq_false_of_ne (Ne.symm hb)
      rw [hne]
      exact ih

/-- C4: after the metadata step completes, the session has been re-keyed: a
lookup under the provisional key (conversation + placeholder 0) fails, and a
lookup under the permanent key (conversation + the identifier of the UI message
just sent, a nonzero identifier) returns the session record, whatever the prior
registry contents. -/
theorem metadataRekey_lookup :
    ∀ (reg : Registry) (chatID sentMsgID : Int) (info : Download),
      sentMsgID ≠ 0 →
      regLookup (metadataRekey reg chatID sentMsgID info) (getCacheKey chatID 0) = none ∧
      regLookup (metadataRekey reg chatID sentMsgID info) (getCacheKey chatID sentMsgID) =
        some info := by
  intro reg chatID sentMsgID info hm
  have hne := getCacheKey_ne_of_msg_ne_zero chatID sentMsgID hm
  constructor
  · rw [metadataRekey]
    exact regLookup_regDelete_self _ _
  · rw [metadataRekey, regStore, regStore, regDelete, List.filter]
    have hb : ((getCacheKey chatID sentMsgID, info).1 != getCacheKey chatID 0) = true := by
      rw [bne_iff_ne]
      exact hne
    rw [hb]
    rw [regLookup, List.lookup]
    have : (getCacheKey chatID sentMsgID == getCacheKey chatID sentMsgID) = true := beq_self_eq_true _
    rw [this]

/-- C4 witness: a concrete re-keying from the placeholder to message id 5. -/
theorem metadataRekey_lookup_w :
    regLookup (metadataRekey [] 7 5 ⟨"u", "YouTube", "t", "th", 0, false⟩)
      (getCacheKey 7 0) = none ∧
    regLookup (metadataRekey [] 7 5 ⟨"u", "YouTube", "t", "th", 0, false⟩)
      (getCacheKey 7 5) = some ⟨"u", "YouTube", "t", "th", 0, false⟩ :=
  metadataRekey_lookup [] 7 5 ⟨"u", "YouTube", "t", "th", 0, false⟩ (by decide)

/-! ## C6: the 150 MiB size gate -/

/-- C6: for a produced file strictly above the 150 MiB ceiling, delivery (video
and audio alike) sends the size-exceeded message and never invokes the upload;
for a file at or under the ceiling, the upload is attempted (and no
size-exceeded message is sent). -/
theorem delivery_size_gate :
    ∀ (platform title quality : String) (fileSize : Int),
      (MaxFileSize < fileSize →
        BotAction.sizeExceededVideo fileSize ∈ videoDelivery platform title quality fileSize ∧
        (∀ p tt q s, BotAction.uploadVideo p tt q s ∉ videoDelivery platform title quality fileSize) ∧
        BotAction.sizeExceededAudio fileSize ∈ audioDelivery platform title fileSize ∧
        (∀ p tt t s, BotAction.uploadAudio p tt t s ∉ audioDelivery platform title fileSize)) ∧
      (fileSize ≤ MaxFileSize →
        BotAction.uploadVideo platform (truncateString title 100) quality fileSize ∈
          videoDelivery platform title quality fileSize ∧
        BotAction.uploadAudio platform (truncateString title 100) title fileSize ∈
          audioDelivery platform title fileSize ∧
        (∀ s, BotAction.sizeExceededVideo s ∉ videoDelivery platform title quality fileSize) ∧
        (∀ s, BotAction.sizeExceededAudio s ∉ audioDelivery platform title fileSize)) := by
  intro platform title quality fileSize
  constructor
  · intro h
    rw [videoDelivery, audioDelivery, if_pos h, if_pos h]
    refine ⟨by simp, ?_, by simp, ?_⟩
    · intro p tt q s
      simp
    · intro p tt t s
      simp
  · intro h
    have hn : ¬ MaxFileSize < fileSize := not_lt.mpr h
    rw [videoDelivery, audioDelivery, if_neg hn, if_neg hn]
    refine ⟨by simp, by simp, ?_, ?_⟩
    · intro s
      simp
    · intro s
      simp

/-- C6 witness: a 200 MiB file triggers the size-exceeded message without an
upload; a 10 MiB file is uploaded. -/
theorem delivery_size_gate_w :
    BotAction.sizeExceededVideo (200 * 1024 * 1024) ∈
      videoDelivery "YouTube" "Sample Title" "480p" (200 * 1024 * 1024) ∧
    BotAction.uploadVideo "YouTube" (truncateString "Sample Title" 100) "480p" (10 * 1024 * 1024) ∈
      videoDelivery "YouTube" "Sample Title" "480p" (10 * 1024 * 1024) :=
  ⟨((delivery_size_gate "YouTube" "Sample Title" "480p" (200 * 1024 * 1024)).1 (by decide)).1,
    ((delivery_size_gate "YouTube" "Sample Title" "480p" (10 * 1024 * 1024)).2 (by decide)).1⟩

/-! ## C8: format policy -/

theorem videoFormatCode_mem (p q : String) :
    videoFormatCode p q ∈
      (["18/bestvideo[height<=360]+bestaudio/best[height<=360]",
        "135+bestaudio/bestvideo[height<=480]+bestaudio/best[height<=480]",
        "22/136+bestaudio/bestvideo[height<=720]+bestaudio/best[height<=720]",
        "best", "worst[ext=mp4]/worst", "best[ext=mp4]/best"] : List String) := by
  rw [videoFormatCode]
  split_ifs <;> simp

theorem videoOutputName_ne_cert (ts : Int) :
    videoOutputName ts ≠ "--no-check-certificate" := by
  intro h
  have h1 : (videoOutputName ts).data.head? = some 'v' := rfl
  rw [h] at h1
  exact absurd h1 (by decide)

theorem audioOutputName_ne_cert (ts : Int) :
    audioOutputName ts ≠ "--no-check-certificate" := by
  intro h
  have h1 : (audioOutputName ts).data.head? = some 'a' := rfl
  rw [h] at h1
  exact absurd h1 (by decide)

theorem cert_not_mem_video_base (p q : String) (ts : Int) :
    "--no-check-certificate" ∉ (["-f", videoFormatCode p q, "--remux-video", "mp4",
      "-o", videoOutputName ts, "--newline", "--progress-template", progressTemplateArg,
      "--no-playlist"] : List String) := by
  intro h
  simp only [List.mem_cons, List.not_mem_nil, or_false] at h
  rcases h with h | h | h | h | h | h | h | h | h | h
  · exact absurd h (by decide)
  · have hm := videoFormatCode_mem p q
    rw [← h] at hm
    exact absurd hm (by decide)
  · exact absurd h (by decide)
  · exact absurd h (by decide)
  · exact absurd h (by decide)
  · exact videoOutputName_ne_cert ts h.symm
  · exact absurd h (by decide)
  · exact absurd h (by decide)
  · exact absurd h (by decide)
  · exact absurd h (by decide)

theorem cert_not_mem_audio_base (ts : Int) :
    "--no-check-certificate" ∉ (["-x", "--audio-format", "mp3", "--audio-quality", "0",
      "-o", audioOutputName ts, "--newline", "--progress-template", progressTemplateArg,
      "--no-playlist"] : List String) := by
  intro h
  simp only [List.mem_cons, List.not_mem_nil, or_false] at h
  rcases h with h | h | h | h | h | h | h | h | h | h | h
  · exact absurd h (by decide)
  · exact absurd h (by decide)
  · exact absurd h (by decide)
  · exact absurd h (by decide)
  · exact absurd h (by decide)
  · exact absurd h (by decide)
  · exact audioOutputName_ne_cert ts h.symm
  · exact absurd h (by decide)
  · exact absurd h (by decide)
  · exact absurd h (by decide)
  · exact absurd h (by decide)

/-- C8: the format policy maps platform, format and quality to tool arguments
exactly as the policy table states: for YouTube video the tokens 360p/480p/720p
select the corresponding height-bounded merged-stream specifiers and any other
token selects "best"; for Instagram/Facebook/TikTok video the token "medium"
selects worst-quality-mp4-preferred and any other token best-mp4-else-best; any
other platform always gets "best"; and the skip-TLS-verification flag is
appended, on the video and audio paths alike, exactly for Instagram and
Facebook. -/
theorem formatPolicy_table :
    ∀ (quality url : String) (ts : Int),
      videoFormatCode "YouTube" "360p" =
        "18/bestvideo[height<=360]+bestaudio/best[height<=360]" ∧
      videoFormatCode "YouTube" "480p" =
        "135+bestaudio/bestvideo[height<=480]+bestaudio/best[height<=480]" ∧
      videoFormatCode "YouTube" "720p" =
        "22/136+bestaudio/bestvideo[height<=720]+bestaudio/best[height<=720]" ∧
      (quality ≠ "360p" → quality ≠ "480p" → quality ≠ "720p" →
        videoFormatCode "YouTube" quality = "best") ∧
      (∀ p, p = "Instagram" ∨ p = "Facebook" ∨ p = "TikTok" →
        videoFormatCode p "medium" = "worst[ext=mp4]/worst" ∧
        (quality ≠ "medium" → videoFormatCode p quality = "best[ext=mp4]/best")) ∧
      (∀ p, p ≠ "YouTube" → p ≠ "Instagram" → p ≠ "Facebook" → p ≠ "TikTok" →
        videoFormatCode p quality = "best") ∧
      (∀ p, url ≠ "--no-check-certificate" →
        (("--no-check-certificate" ∈ videoArgs p quality url ts ↔
            p = "Instagram" ∨ p = "Facebook") ∧
          ("--no-check-certificate" ∈ audioArgs p url ts ↔
            p = "Instagram" ∨ p = "Facebook"))) := by
  intro quality url ts
  refine ⟨by decide, by decide, by decide, ?_, ?_, ?_, ?_⟩
  · intro h1 h2 h3
    rw [videoFormatCode, if_pos rfl, if_neg h1, if_neg h2, if_neg h3]
  · intro p hp
    constructor
    · rcases hp with rfl | rfl | rfl <;> decide
    · intro hq
      have hyt : p ≠ "YouTube" := by
        rcases hp with rfl | rfl | rfl <;> decide
      rw [videoFormatCode, if_neg hyt, if_pos hp, if_neg hq]
  · intro p h1 h2 h3 h4
    have hcond : ¬ (p = "Instagram" ∨ p = "Facebook" ∨ p = "TikTok") := by
      rintro (rfl | rfl | rfl)
      · exact h2 rfl
      · exact h3 rfl
      · exact h4 rfl
    rw [videoFormatCode, if_neg h1, if_neg hcond]
  · intro p hurl
    by_cases hp : p = "Instagram" ∨ p = "Facebook"
    · refine ⟨⟨fun _ => hp, fun _ => ?_⟩, ⟨fun _ => hp, fun _ => ?_⟩⟩
      · simp only [videoArgs, if_pos hp]
        simp
      · simp only [audioArgs, if_pos hp]
        simp
    · refine ⟨⟨fun hmem => ?_, fun hin => absurd hin hp⟩,
        ⟨fun hmem => ?_, fun hin => absurd hin hp⟩⟩
      · exfalso
        simp only [videoArgs, if_neg hp] at hmem
        rcases List.mem_append.mp hmem with hb | hu
        · exact cert_not_mem_video_base p quality ts hb
        · rw [List.mem_singleton] at hu
          exact hurl hu.symm
      · exfalso
        simp only [audioArgs, if_neg hp] at hmem
        rcases List.mem_append.mp hmem with hb | hu
        · exact cert_not_mem_audio_base ts hb
        · rw [List.mem_singleton] at hu
          exact hurl hu.symm

/-- C8 witness: an unlisted YouTube quality token falls back to "best", the
flag is appended for an Instagram video download, and it is absent for a
TikTok one. -/
theorem formatPolicy_table_w :
    videoFormatCode "YouTube" "1080p" = "best" ∧
    "--no-check-certificate" ∈ videoArgs "Instagram" "medium" "https://instagram.com/p/1" 1 ∧
    "--no-check-certificate" ∉ audioArgs "TikTok" "https://tiktok.com/v/1" 1 :=
  ⟨(formatPolicy_table "1080p" "x" 1).2.2.2.1 (by decide) (by decide) (by decide),
    ((formatPolicy_table "medium" "https://instagram.com/p/1" 1).2.2.2.2.2.2 "Instagram"
      (by decide)).1.mpr (Or.inl rfl),
    fun hmem =>
      absurd (((formatPolicy_table "medium" "https://tiktok.com/v/1" 1).2.2.2.2.2.2 "TikTok"
        (by decide)).2.mp hmem) (by decide)⟩
